import Mathlib

/-!
Verification of the cosmic-applet-exchange-rate repository (src/app.rs).

The development shallowly embeds the poller logic of `app.rs`: the
`fetch_exchange_rate` function (string slicing, one HTTP GET, JSON field
extraction via serde_json indexing and Display rendering), the body of the
spawned poller loop (write of the quote-trimmed rate into the shared cell on
success, diagnostic log on error, 600-second sleep), and the `update`
message handler of the applet. The network is modelled as a function from
URL to a response outcome; side effects of one loop iteration are recorded
as an explicit event list.
-/

namespace ExchangeApplet

/-- JSON values, modelling the serde_json `Value` type that `app.rs` uses.
Numbers carry their source rendering as text, since no claim inspects
numeric fields. -/
inductive Json where
  | null : Json
  | bool (b : Bool) : Json
  | num (lit : String) : Json
  | str (s : String) : Json
  | arr (elems : List Json) : Json
  | obj (fields : List (String × Json)) : Json

/-- Lower-case hexadecimal digit for a value below 16. -/
def hexDigit (n : Nat) : Char :=
  if n < 10 then Char.ofNat (48 + n) else Char.ofNat (87 + n)

/-- serde_json escaping of one character inside a JSON string literal:
quote and backslash get a backslash escape, the named control characters get
their short escapes, the remaining control characters get a u00XX escape,
and every other character stands for itself. -/
def escapeChar (c : Char) : List Char :=
  if c = '"' then ['\\', '"']
  else if c = '\\' then ['\\', '\\']
  else if c = Char.ofNat 8 then ['\\', 'b']
  else if c = Char.ofNat 12 then ['\\', 'f']
  else if c = '\n' then ['\\', 'n']
  else if c = '\r' then ['\\', 'r']
  else if c = '\t' then ['\\', 't']
  else if c.toNat < 32 then
    ['\\', 'u', '0', '0', hexDigit (c.toNat / 16), hexDigit (c.toNat % 16)]
  else [c]

/-- serde_json escaping of a whole string. -/
def escapeString (s : String) : String :=
  String.mk (s.data.flatMap escapeChar)

mutual

/-- The compact serialization produced by serde_json's Display
implementation, which is what `Value::to_string()` at app.rs line 190
returns: `null` renders as the four letters null, a string renders inside
quote characters with its contents escaped, arrays and objects render with
comma-separated members and no whitespace. -/
def Json.render : Json → String
  | .null => "null"
  | .bool true => "true"
  | .bool false => "false"
  | .num lit => lit
  | .str s => "\"" ++ escapeString s ++ "\""
  | .arr es => "[" ++ renderElems es ++ "]"
  | .obj fs => "\x7b" ++ renderFields fs ++ "\x7d"

/-- Comma-separated rendering of array elements. -/
def renderElems : List Json → String
  | [] => ""
  | [v] => Json.render v
  | v :: rest => Json.render v ++ "," ++ renderElems rest

/-- Comma-separated rendering of object fields. -/
def renderFields : List (String × Json) → String
  | [] => ""
  | [(k, v)] => "\"" ++ escapeString k ++ "\":" ++ Json.render v
  | (k, v) :: rest =>
    "\"" ++ escapeString k ++ "\":" ++ Json.render v ++ "," ++ renderFields rest

end

/-- serde_json `Value` indexing by a string key, as used by
`response[input_value]["bid"]` at app.rs line 190: on an object the value
under the key when present, and `Null` in every other case (missing key, or
indexing a non-object, including `Null` itself). This operation never
fails. -/
def Json.index : Json → String → Json
  | .obj fs, key =>
    match fs.lookup key with
    | some v => v
    | none => .null
  | _, _ => .null

/-- Key lookup that distinguishes an absent field from a field holding
`null`: `some` exactly when the value is an object carrying the key. -/
def Json.lookupKey : Json → String → Option Json
  | .obj fs, key => fs.lookup key
  | _, _ => none

/-- Rust `str::trim_matches('"')`: removes every leading and every trailing
quote character (whole runs, not just one surrounding pair). -/
def trimMatchesQuote (s : String) : String :=
  String.mk (((s.data.dropWhile (fun c => c == '"')).reverse.dropWhile
    (fun c => c == '"')).reverse)

/-- Rust string slicing at a byte index: `splitAtByte n cs` is `some`
exactly when byte offset `n` is a character boundary of the UTF-8 string
with characters `cs` (so both `&s[..n]` and `&s[n..]` succeed), and then
returns the characters before and after the boundary. `none` models the
panic that `&input_value[..3]` / `&input_value[3..]` raise at app.rs lines
181 and 183 when offset 3 is out of bounds or not a character boundary. -/
def splitAtByte : Nat → List Char → Option (List Char × List Char)
  | 0, cs => some ([], cs)
  | _ + 1, [] => none
  | n + 1, c :: cs =>
    if c.utf8Size ≤ n + 1 then
      match splitAtByte (n + 1 - c.utf8Size) cs with
      | some (pre, post) => some (c :: pre, post)
      | none => none
    else none

/-- Total UTF-8 byte length of a character list. -/
def byteLen (l : List Char) : Nat := (l.map Char.utf8Size).sum

/-- The two error classes the `Result` of `fetch_exchange_rate` can carry:
a transport error from `reqwest::get` or a deserialization error from
`json::<Value>()` on a malformed body. -/
inductive FetchErr where
  | transport : FetchErr
  | malformedJson : FetchErr
deriving Repr, DecidableEq

/-- Outcome of one HTTP GET to a given URL, the model of the network. -/
inductive NetResult where
  | transportError : NetResult
  | malformedJson : NetResult
  | okJson (body : Json) : NetResult

/-- Outcome of running a piece of Rust code that may panic. -/
inductive RustOutcome (α : Type) where
  | panicked : RustOutcome α
  | ok (val : α) : RustOutcome α
deriving Repr, DecidableEq

/-- Observable side effects of one poller loop iteration. -/
inductive LoopEvent where
  | httpGet (url : String) : LoopEvent
  | cellWrite (value : String) : LoopEvent
  | logError (e : FetchErr) : LoopEvent
  | sleepSecs (secs : Nat) : LoopEvent
deriving Repr, DecidableEq

/-- The request URL built by the format string at app.rs lines 184-186. -/
def apiUrl (from_currency to_currency : String) : String :=
  "https://economia.awesomeapi.com.br/last/" ++ from_currency ++ "-" ++ to_currency

/-- `fetch_exchange_rate` (app.rs lines 179-191) against a network model
`net`: slice the input at byte offset 3 into `from_currency` and
`to_currency` (panicking when offset 3 is not a character boundary), issue
one GET to the awesomeapi URL, and on a JSON body return
`response[input_value]["bid"].to_string()`. Transport and JSON-parse
failures surface as the `Err` branch via the two `?` operators. The second
component records the side effects (here: the GET, when reached). -/
def fetch_exchange_rate (net : String → NetResult) (input_value : String) :
    RustOutcome (Except FetchErr String × List LoopEvent) :=
  match splitAtByte 3 input_value.data with
  | none => .panicked
  | some (pre, post) =>
    let from_currency := String.mk pre
    let to_currency := String.mk post
    let url := apiUrl from_currency to_currency
    match net url with
    | .transportError => .ok (.error .transport, [.httpGet url])
    | .malformedJson => .ok (.error .malformedJson, [.httpGet url])
    | .okJson body =>
      .ok (.ok (((body.index input_value).index "bid").render), [.httpGet url])

/-- The body of the spawned poller loop (app.rs lines 87-98): run
`fetch_exchange_rate`; on `Ok(rate)` assign `rate.trim_matches('"')` to the
shared cell, on `Err(e)` print the error to the diagnostic stream; then
sleep 600 seconds. Returns the new cell value together with the iteration's
event list. -/
def loopIter (net : String → NetResult) (input_value cell : String) :
    RustOutcome (String × List LoopEvent) :=
  match fetch_exchange_rate net input_value with
  | .panicked => .panicked
  | .ok (.ok rate, evs) =>
    let newCell := trimMatchesQuote rate
    .ok (newCell, evs ++ [.cellWrite newCell, .sleepSecs 600])
  | .ok (.error e, evs) =>
    .ok (cell, evs ++ [.logError e, .sleepSecs 600])

/-- The events of one loop iteration from a given cell value (empty when
the iteration panics before any side effect, which only slicing can
cause). -/
def iterEvents (net : String → NetResult) (input_value cell : String) :
    List LoopEvent :=
  match loopIter net input_value cell with
  | .panicked => []
  | .ok (_, evs) => evs

/-- Cell contents when iteration `n` of the poller loop is about to start,
from initial cell value `cell0`; `panicked` once any earlier iteration
panicked (the thread is dead and the cell frozen — modelled as absorbing). -/
def pollerCell (net : String → NetResult) (input_value cell0 : String) :
    Nat → RustOutcome String
  | 0 => .ok cell0
  | n + 1 =>
    match pollerCell net input_value cell0 n with
    | .panicked => .panicked
    | .ok c =>
      match loopIter net input_value c with
      | .panicked => .panicked
      | .ok (c2, _) => .ok c2

/-- The event list of iteration `n` of the poller loop. -/
def pollerIterEvents (net : String → NetResult) (input_value cell0 : String)
    (n : Nat) : List LoopEvent :=
  match pollerCell net input_value cell0 n with
  | .panicked => []
  | .ok c => iterEvents net input_value c

/-- Whether `fetch_exchange_rate` returns `Ok` for this pair against this
network model. -/
def fetchOk (net : String → NetResult) (pair : String) : Bool :=
  match fetch_exchange_rate net pair with
  | .ok (.ok _, _) => true
  | _ => false

/-- The applet state struct `YourApp` (app.rs lines 22-32), with host
runtime `core` omitted, the window id as a number and the lock-guarded
shared string flattened to its value. -/
structure YourApp where
  popup : Option Nat
  input_value : String
  exchange_rate : String
deriving Repr, DecidableEq

/-- The applet message enum (app.rs lines 37-42). -/
inductive Message where
  | TogglePopup : Message
  | PopupClosed (id : Nat) : Message
  | InputChanged (value : String) : Message
deriving Repr, DecidableEq

/-- The state built in `init` (app.rs lines 76-81): `input_value` set to
USDBRL, everything else from `Default` — no popup, and an empty string in
the shared exchange-rate cell. -/
def initApp : YourApp :=
  { popup := none, input_value := "USDBRL", exchange_rate := "" }

/-- The `update` handler (app.rs lines 142-172). `freshId` stands for the
`Id::unique()` value minted when TogglePopup opens a popup. TogglePopup
takes the popup id when present (closing) and otherwise stores a fresh one
(opening); PopupClosed clears a matching id; InputChanged stores the new
text in `input_value`. No branch touches `exchange_rate`. -/
def update (app : YourApp) (freshId : Nat) : Message → YourApp
  | .TogglePopup =>
    match app.popup with
    | some _ => { app with popup := none }
    | none => { app with popup := some freshId }
  | .PopupClosed id =>
    if app.popup = some id then { app with popup := none } else app
  | .InputChanged new_value => { app with input_value := new_value }

/-- Whole-system state: the applet struct plus the state owned by the
spawned poller thread — the symbol pair it captured by value at app.rs line
84 and whether it has panicked. `app.exchange_rate` doubles as the shared
cell, which the poller writes through the Arc clone taken at line 83. -/
structure SystemState where
  app : YourApp
  pollerPair : String
  pollerPanicked : Bool
deriving Repr, DecidableEq

/-- System state right after `init` returns: the poller thread captured a
clone of the startup `input_value`. -/
def initSystem : SystemState :=
  { app := initApp, pollerPair := initApp.input_value, pollerPanicked := false }

/-- An operation on the running system: either the runtime delivers a
message to `update`, or the poller thread performs one loop iteration. -/
inductive SysOp where
  | ui (freshId : Nat) (m : Message) : SysOp
  | pollTick : SysOp
deriving Repr, DecidableEq

/-- One system step, returning the new state and the poller events the step
produced (a UI message produces none). A panicked poller thread performs
nothing ever after. -/
def sysStep (net : String → NetResult) (s : SystemState) :
    SysOp → SystemState × List LoopEvent
  | .ui freshId m => ({ s with app := update s.app freshId m }, [])
  | .pollTick =>
    if s.pollerPanicked then (s, [])
    else
      match loopIter net s.pollerPair s.app.exchange_rate with
      | .panicked => ({ s with pollerPanicked := true }, [])
      | .ok (c, evs) => ({ s with app := { s.app with exchange_rate := c } }, evs)

/-- Run a sequence of system operations from a state. -/
def sysRun (net : String → NetResult) (s : SystemState) :
    List SysOp → SystemState
  | [] => s
  | op :: ops => sysRun net (sysStep net s op).1 ops

/-- The error carried by a failing network outcome, `none` on a JSON body. -/
def NetResult.errOf : NetResult → Option FetchErr
  | .transportError => some .transport
  | .malformedJson => some .malformedJson
  | .okJson _ => none

/-- Whether a Rust outcome is the panic case. -/
def RustOutcome.isPanicked {α : Type} : RustOutcome α → Bool
  | .panicked => true
  | .ok _ => false

/-- Recognizer for HTTP GET events. -/
def isHttpGetEvent : LoopEvent → Bool
  | .httpGet _ => true
  | _ => false

/-- Recognizer for shared-cell write events. -/
def isCellWrite : LoopEvent → Bool
  | .cellWrite _ => true
  | _ => false

/-- Recognizer for diagnostic log events. -/
def isLogEvent : LoopEvent → Bool
  | .logError _ => true
  | _ => false

/-- Recognizer for sleep events. -/
def isSleepEvent : LoopEvent → Bool
  | .sleepSecs _ => true
  | _ => false

/-! ## Helper lemmas -/

theorem dropWhile_head?_not (p : Char → Bool) :
    ∀ (l : List Char) (a : Char), (l.dropWhile p).head? = some a → p a = false := by
  intro l
  induction l with
  | nil => intro a h; simp [List.dropWhile] at h
  | cons c t ih =>
    intro a h
    rw [List.dropWhile_cons] at h
    by_cases hc : p c
    · exact ih a (by simpa [hc] using h)
    · simp [hc] at h
      subst h
      simpa using hc

theorem dropWhile_getLast? (p : Char → Bool) :
    ∀ l : List Char, l.dropWhile p = [] ∨ (l.dropWhile p).getLast? = l.getLast? := by
  intro l
  induction l with
  | nil => exact Or.inl rfl
  | cons c t ih =>
    rw [List.dropWhile_cons]
    by_cases hc : p c
    · simp only [hc, if_pos]
      rcases ih with h1 | h2
      · exact Or.inl h1
      · cases t with
        | nil => exact Or.inl (by simp_all)
        | cons b t2 => exact Or.inr (by rw [h2, List.getLast?_cons_cons])
    · simp [hc]

theorem dropWhile_eq_self_of (p : Char → Bool) (l : List Char)
    (h : ∀ c ∈ l, p c = false) : l.dropWhile p = l := by
  cases l with
  | nil => rfl
  | cons c t => rw [List.dropWhile_cons, h c (by simp)]; simp

theorem trimMatchesQuote_ends (s : String) :
    (trimMatchesQuote s).data.head? ≠ some '"' ∧
    (trimMatchesQuote s).data.getLast? ≠ some '"' := by
  unfold trimMatchesQuote
  constructor
  · intro h
    rw [show (String.mk (((s.data.dropWhile fun c => c == '"').reverse.dropWhile
        fun c => c == '"').reverse)).data =
        ((s.data.dropWhile fun c => c == '"').reverse.dropWhile
        fun c => c == '"').reverse from rfl] at h
    rw [List.head?_reverse] at h
    rcases dropWhile_getLast? (fun c => c == '"')
        ((s.data.dropWhile fun c => c == '"').reverse) with h1 | h2
    · rw [h1] at h; simp at h
    · rw [h2, List.getLast?_reverse] at h
      have := dropWhile_head?_not (fun c => c == '"') s.data '"' h
      simp at this
  · intro h
    rw [show (String.mk (((s.data.dropWhile fun c => c == '"').reverse.dropWhile
        fun c => c == '"').reverse)).data =
        ((s.data.dropWhile fun c => c == '"').reverse.dropWhile
        fun c => c == '"').reverse from rfl] at h
    rw [List.getLast?_reverse] at h
    have := dropWhile_head?_not (fun c => c == '"')
      ((s.data.dropWhile fun c => c == '"').reverse) '"' h
    simp at this

theorem trim_quote_wrap (l : List Char) (h : ∀ c ∈ l, (c == '"') = false) :
    trimMatchesQuote (String.mk ('"' :: (l ++ ['"']))) = String.mk l := by
  unfold trimMatchesQuote
  apply congrArg String.mk
  rw [show (String.mk ('"' :: (l ++ ['"']))).data = '"' :: (l ++ ['"']) from rfl]
  rw [List.dropWhile_cons]
  rw [if_pos (show (('"' : Char) == '"') = true from rfl)]
  cases l with
  | nil => rfl
  | cons x t =>
    rw [show (x :: t) ++ ['"'] = x :: (t ++ ['"']) from rfl]
    rw [List.dropWhile_cons,
      if_neg (by rw [h x (List.mem_cons_self x t)]; exact Bool.false_ne_true)]
    rw [show x :: (t ++ ['"']) = (x :: t) ++ ['"'] from rfl, List.reverse_append]
    rw [show (['"'].reverse ++ (x :: t).reverse) = '"' :: (x :: t).reverse from rfl]
    rw [List.dropWhile_cons]
    rw [if_pos (show (('"' : Char) == '"') = true from rfl)]
    rw [dropWhile_eq_self_of _ _ (fun c hc => h c (List.mem_reverse.mp hc))]
    exact List.reverse_reverse _

theorem escapeChar_eq_self_ne_quote (c : Char) (h : escapeChar c = [c]) :
    (c == '"') = false := by
  by_contra hq
  have hc : c = '"' := by simpa using hq
  subst hc
  simp [escapeChar] at h

theorem flatMap_escape_id :
    ∀ l : List Char, (∀ c ∈ l, escapeChar c = [c]) → l.flatMap escapeChar = l := by
  intro l
  induction l with
  | nil => intro _; rfl
  | cons c t ih =>
    intro h
    rw [List.flatMap_cons, h c (by simp), ih (fun d hd => h d (by simp [hd]))]
    rfl

theorem escapeString_eq_self (s : String) (h : ∀ c ∈ s.data, escapeChar c = [c]) :
    escapeString s = s := by
  unfold escapeString
  rw [flatMap_escape_id s.data h]

theorem trim_render_str (b : String) (h : ∀ c ∈ b.data, escapeChar c = [c]) :
    trimMatchesQuote (Json.str b).render = b := by
  have h2 : (Json.str b).render = String.mk ('"' :: (b.data ++ ['"'])) := by
    show "\"" ++ escapeString b ++ "\"" = _
    rw [escapeString_eq_self b h]
    have h3 : ("\"" ++ b ++ "\"").data = '"' :: (b.data ++ ['"']) := by
      rw [String.data_append, String.data_append]
      rfl
    calc "\"" ++ b ++ "\"" = String.mk (("\"" ++ b ++ "\"").data) := rfl
      _ = String.mk ('"' :: (b.data ++ ['"'])) := by rw [h3]
  rw [h2, trim_quote_wrap b.data (fun c hc => escapeChar_eq_self_ne_quote c (h c hc))]

theorem splitAtByte_ascii :
    ∀ (n : Nat) (l : List Char), (∀ c ∈ l, c.utf8Size = 1) → n ≤ l.length →
      splitAtByte n l = some (l.take n, l.drop n) := by
  intro n
  induction n with
  | zero => intro l _ _; simp [splitAtByte]
  | succ n ih =>
    intro l h hlen
    cases l with
    | nil => simp at hlen
    | cons c t =>
      have hc : c.utf8Size = 1 := h c (by simp)
      simp only [splitAtByte, hc]
      rw [if_pos (by omega)]
      rw [show n + 1 - 1 = n from rfl]
      rw [ih t (fun d hd => h d (by simp [hd])) (by simpa using hlen)]
      simp

theorem byteLen_cons (c : Char) (t : List Char) :
    byteLen (c :: t) = c.utf8Size + byteLen t := by
  simp [byteLen]

theorem splitAtByte_isSome_iff :
    ∀ (l : List Char) (k : Nat),
      (splitAtByte k l).isSome = true ↔ ∃ n, byteLen (l.take n) = k := by
  intro l
  induction l with
  | nil =>
    intro k
    cases k with
    | zero => exact ⟨fun _ => ⟨0, rfl⟩, fun _ => rfl⟩
    | succ k =>
      constructor
      · intro hsome; simp [splitAtByte] at hsome
      · intro hex
        obtain ⟨n, hn⟩ := hex
        exfalso
        simp [byteLen] at hn
  | cons c t ih =>
    intro k
    cases k with
    | zero => exact ⟨fun _ => ⟨0, rfl⟩, fun _ => rfl⟩
    | succ k =>
      simp only [splitAtByte]
      by_cases hle : c.utf8Size ≤ k + 1
      · rw [if_pos hle]
        constructor
        · intro hsome
          cases hsp : splitAtByte (k + 1 - c.utf8Size) t with
          | none => rw [hsp] at hsome; simp at hsome
          | some pr =>
            have hex : ∃ m, byteLen (t.take m) = k + 1 - c.utf8Size :=
              (ih (k + 1 - c.utf8Size)).mp (by rw [hsp]; rfl)
            obtain ⟨m, hm⟩ := hex
            refine ⟨m + 1, ?_⟩
            rw [List.take_succ_cons, byteLen_cons]
            omega
        · intro hex
          obtain ⟨n, hn⟩ := hex
          cases n with
          | zero => exfalso; simp [byteLen] at hn
          | succ m =>
            rw [List.take_succ_cons, byteLen_cons] at hn
            have hm : byteLen (t.take m) = k + 1 - c.utf8Size := by omega
            have hsome := (ih (k + 1 - c.utf8Size)).mpr ⟨m, hm⟩
            cases hsp : splitAtByte (k + 1 - c.utf8Size) t with
            | none => rw [hsp] at hsome; simp at hsome
            | some pr =>
              obtain ⟨pre, post⟩ := pr
              rfl
      · rw [if_neg hle]
        constructor
        · intro hsome; simp at hsome
        · intro hex
          obtain ⟨n, hn⟩ := hex
          exfalso
          cases n with
          | zero => simp [byteLen] at hn
          | succ m =>
            rw [List.take_succ_cons, byteLen_cons] at hn
            have := Char.utf8Size_pos c
            omega

theorem fetch_panic_of_none (net : String → NetResult) (pair : String)
    (hsp : splitAtByte 3 pair.data = none) :
    fetch_exchange_rate net pair = .panicked := by
  unfold fetch_exchange_rate
  rw [hsp]

theorem fetch_eq_of_split (net : String → NetResult) (pair : String)
    (pre post : List Char) (hsp : splitAtByte 3 pair.data = some (pre, post)) :
    fetch_exchange_rate net pair =
      .ok (match net (apiUrl (String.mk pre) (String.mk post)) with
           | .transportError => .error .transport
           | .malformedJson => .error .malformedJson
           | .okJson body => .ok (((body.index pair).index "bid").render),
           [.httpGet (apiUrl (String.mk pre) (String.mk post))]) := by
  unfold fetch_exchange_rate
  rw [hsp]
  cases hn : net (apiUrl (String.mk pre) (String.mk post)) <;> simp [hn]

theorem fetch_shape (net : String → NetResult) (pair : String) :
    fetch_exchange_rate net pair = .panicked ∨
    ∃ (r : Except FetchErr String) (pre post : List Char),
      splitAtByte 3 pair.data = some (pre, post) ∧
      fetch_exchange_rate net pair =
        .ok (r, [.httpGet (apiUrl (String.mk pre) (String.mk post))]) := by
  cases hsp : splitAtByte 3 pair.data with
  | none => exact Or.inl (fetch_panic_of_none net pair hsp)
  | some pr =>
    obtain ⟨pre, post⟩ := pr
    right
    have heq := fetch_eq_of_split net pair pre post hsp
    exact ⟨_, pre, post, rfl, heq⟩

theorem loopIter_okJson (net : String → NetResult) (pair cell : String)
    (pre post : List Char) (body : Json)
    (hsp : splitAtByte 3 pair.data = some (pre, post))
    (hnet : net (apiUrl (String.mk pre) (String.mk post)) = .okJson body) :
    loopIter net pair cell =
      .ok (trimMatchesQuote (((body.index pair).index "bid").render),
        [.httpGet (apiUrl (String.mk pre) (String.mk post)),
         .cellWrite (trimMatchesQuote (((body.index pair).index "bid").render)),
         .sleepSecs 600]) := by
  unfold loopIter
  rw [fetch_eq_of_split net pair pre post hsp, hnet]
  rfl

theorem loopIter_err (net : String → NetResult) (pair cell : String)
    (pre post : List Char) (e : FetchErr)
    (hsp : splitAtByte 3 pair.data = some (pre, post))
    (hnet : (net (apiUrl (String.mk pre) (String.mk post))).errOf = some e) :
    loopIter net pair cell =
      .ok (cell,
        [.httpGet (apiUrl (String.mk pre) (String.mk post)),
         .logError e, .sleepSecs 600]) := by
  unfold loopIter
  rw [fetch_eq_of_split net pair pre post hsp]
  cases hn : net (apiUrl (String.mk pre) (String.mk post)) with
  | transportError =>
    rw [hn] at hnet
    simp only [NetResult.errOf] at hnet
    obtain rfl := Option.some_inj.mp hnet
    rfl
  | malformedJson =>
    rw [hn] at hnet
    simp only [NetResult.errOf] at hnet
    obtain rfl := Option.some_inj.mp hnet
    rfl
  | okJson body =>
    rw [hn] at hnet
    simp [NetResult.errOf] at hnet

theorem loopIter_panic (net : String → NetResult) (pair cell : String)
    (hsp : splitAtByte 3 pair.data = none) :
    loopIter net pair cell = .panicked := by
  unfold loopIter
  rw [fetch_panic_of_none net pair hsp]

theorem update_exchange_rate (app : YourApp) (freshId : Nat) (m : Message) :
    (update app freshId m).exchange_rate = app.exchange_rate := by
  cases m with
  | TogglePopup => cases hpop : app.popup <;> simp [update, hpop]
  | PopupClosed id => by_cases h : app.popup = some id <;> simp [update, h]
  | InputChanged v => rfl

theorem sysStep_pollerPair (net : String → NetResult) (s : SystemState)
    (op : SysOp) : ((sysStep net s op).1).pollerPair = s.pollerPair := by
  cases op with
  | ui freshId m => rfl
  | pollTick =>
    unfold sysStep
    by_cases hp : s.pollerPanicked
    · rw [if_pos hp]
    · rw [if_neg hp]
      cases loopIter net s.pollerPair s.app.exchange_rate with
      | panicked => rfl
      | ok pr => obtain ⟨c, evs⟩ := pr; rfl

theorem sysRun_pollerPair (net : String → NetResult) :
    ∀ (ops : List SysOp) (s : SystemState),
      (sysRun net s ops).pollerPair = s.pollerPair := by
  intro ops
  induction ops with
  | nil => intro s; rfl
  | cons op rest ih =>
    intro s
    show (sysRun net (sysStep net s op).1 rest).pollerPair = s.pollerPair
    rw [ih (sysStep net s op).1, sysStep_pollerPair]

theorem sysStep_cell_of_fetch_fail (net : String → NetResult) (s : SystemState)
    (op : SysOp) (hfail : op = SysOp.pollTick → fetchOk net s.pollerPair = false) :
    ((sysStep net s op).1).app.exchange_rate = s.app.exchange_rate := by
  cases op with
  | ui freshId m => exact update_exchange_rate s.app freshId m
  | pollTick =>
    have hf := hfail rfl
    unfold sysStep
    by_cases hp : s.pollerPanicked
    · rw [if_pos hp]
    · rw [if_neg hp]
      unfold fetchOk at hf
      unfold loopIter
      cases hfetch : fetch_exchange_rate net s.pollerPair with
      | panicked => rfl
      | ok pr =>
        obtain ⟨r, evs⟩ := pr
        cases r with
        | ok rate => rw [hfetch] at hf; simp at hf
        | error e => rfl

theorem sysRun_cell_of_no_success (net : String → NetResult) :
    ∀ (ops : List SysOp) (s : SystemState),
      (∀ op ∈ ops, op = SysOp.pollTick → fetchOk net s.pollerPair = false) →
      (sysRun net s ops).app.exchange_rate = s.app.exchange_rate := by
  intro ops
  induction ops with
  | nil => intro s _; rfl
  | cons op rest ih =>
    intro s h
    show (sysRun net (sysStep net s op).1 rest).app.exchange_rate = _
    rw [ih (sysStep net s op).1 (fun o ho ht => by
      rw [sysStep_pollerPair]
      exact h o (List.mem_cons_of_mem op ho) ht)]
    exact sysStep_cell_of_fetch_fail net s op
      (fun ht => h op (List.mem_cons_self op rest) ht)

theorem iterEvents_filter_get (net : String → NetResult) (pair cell : String)
    (pre post : List Char) (hsp : splitAtByte 3 pair.data = some (pre, post)) :
    (iterEvents net pair cell).filter isHttpGetEvent =
      [.httpGet (apiUrl (String.mk pre) (String.mk post))] := by
  unfold iterEvents
  cases hn : net (apiUrl (String.mk pre) (String.mk post)) with
  | transportError =>
    rw [loopIter_err net pair cell pre post .transport hsp (by rw [hn]; rfl)]
    rfl
  | malformedJson =>
    rw [loopIter_err net pair cell pre post .malformedJson hsp (by rw [hn]; rfl)]
    rfl
  | okJson body =>
    rw [loopIter_okJson net pair cell pre post body hsp hn]
    rfl

theorem loopIter_usdbrl_shape (net : String → NetResult) (cell : String) :
    ∃ c2 evs, loopIter net "USDBRL" cell = .ok (c2, evs) ∧
      evs.filter isSleepEvent = [.sleepSecs 600] ∧
      evs.getLast? = some (.sleepSecs 600) := by
  have hsp : splitAtByte 3 "USDBRL".data = some ("USD".data, "BRL".data) := by
    decide
  cases hn : net (apiUrl (String.mk "USD".data) (String.mk "BRL".data)) with
  | transportError =>
    refine ⟨cell, _, loopIter_err net "USDBRL" cell "USD".data "BRL".data
      FetchErr.transport hsp (by rw [hn]; rfl), ?_, ?_⟩ <;> rfl
  | malformedJson =>
    refine ⟨cell, _, loopIter_err net "USDBRL" cell "USD".data "BRL".data
      FetchErr.malformedJson hsp (by rw [hn]; rfl), ?_, ?_⟩ <;> rfl
  | okJson body =>
    refine ⟨_, _, loopIter_okJson net "USDBRL" cell "USD".data "BRL".data body
      hsp hn, ?_, ?_⟩ <;> rfl

theorem pollerCell_usdbrl_ok (net : String → NetResult) (cell0 : String) :
    ∀ n : Nat, ∃ c, pollerCell net "USDBRL" cell0 n = .ok c := by
  intro n
  induction n with
  | zero => exact ⟨cell0, rfl⟩
  | succ n ih =>
    obtain ⟨c, hc⟩ := ih
    obtain ⟨c2, evs, hit, _, _⟩ := loopIter_usdbrl_shape net c
    refine ⟨c2, ?_⟩
    simp [pollerCell, hc, hit]

/-- Lookup of a missing field yields serde_json Null after indexing. -/
theorem index_bid_null (body : Json) (pair : String)
    (h : (body.lookupKey pair).bind (fun v => Json.lookupKey v "bid") = none) :
    (body.index pair).index "bid" = .null := by
  cases body with
  | obj fs =>
    simp only [Json.lookupKey] at h
    cases hl : fs.lookup pair with
    | none => simp [Json.index, hl]
    | some v =>
      rw [hl] at h
      simp only [Option.some_bind] at h
      have hv : Json.index (Json.obj fs) pair = v := by simp [Json.index, hl]
      rw [hv]
      cases v with
      | obj gs =>
        simp only [Json.lookupKey] at h
        simp [Json.index, h]
      | null => rfl
      | bool b => rfl
      | num lit => rfl
      | str s => rfl
      | arr es => rfl
  | null => rfl
  | bool b => rfl
  | num lit => rfl
  | str s => rfl
  | arr es => rfl

/-! ## Claims -/

/-- C1: for every well-formed 6-character symbol pair, when the fetch
succeeds and the response body contains the field pair-dot-bid holding a
plain string (one needing no JSON escaping), the poll iteration writes the
bid value with the surrounding quote characters of its rendering stripped
into the shared rate cell; in particular for pair USDBRL and a body whose
bid is 5.32 the cell becomes 5.32. -/
theorem C1_success_writes_bid (net : String → NetResult)
    (pair cell : String) (body : Json) (b : String)
    (h6 : pair.data.length = 6)
    (ha : ∀ c ∈ pair.data, c.utf8Size = 1)
    (hnet : net (apiUrl (String.mk (pair.data.take 3))
      (String.mk (pair.data.drop 3))) = .okJson body)
    (hbid : (body.index pair).index "bid" = .str b)
    (hplain : ∀ c ∈ b.data, escapeChar c = [c]) :
    loopIter net pair cell =
      .ok (b, [.httpGet (apiUrl (String.mk (pair.data.take 3))
        (String.mk (pair.data.drop 3))), .cellWrite b, .sleepSecs 600]) := by
  have hsp : splitAtByte 3 pair.data = some (pair.data.take 3, pair.data.drop 3) :=
    splitAtByte_ascii 3 pair.data ha (by omega)
  rw [loopIter_okJson net pair cell _ _ body hsp hnet, hbid,
    trim_render_str b hplain]

/-- Witness for C1: pair USDBRL, body USDBRL-bid 5.32, cell becomes 5.32. -/
theorem C1_success_writes_bid_witness :
    loopIter (fun _ => NetResult.okJson
        (Json.obj [("USDBRL", Json.obj [("bid", Json.str "5.32")])]))
      "USDBRL" "" =
      RustOutcome.ok ("5.32",
        [LoopEvent.httpGet "https://economia.awesomeapi.com.br/last/USD-BRL",
         LoopEvent.cellWrite "5.32", LoopEvent.sleepSecs 600]) :=
  C1_success_writes_bid
    (fun _ => NetResult.okJson
      (Json.obj [("USDBRL", Json.obj [("bid", Json.str "5.32")])]))
    "USDBRL" "" (Json.obj [("USDBRL", Json.obj [("bid", Json.str "5.32")])])
    "5.32" (by decide) (by decide) rfl rfl (by decide)

/-- C2 counterexample: a valid JSON body that lacks the field USDBRL-bid is
not treated as an error: the iteration logs nothing and writes the string
null into the cell, changing it from its prior value. -/
theorem C2_counterexample :
    loopIter (fun _ => NetResult.okJson (Json.obj [])) "USDBRL" "prev" =
      RustOutcome.ok ("null",
        [LoopEvent.httpGet "https://economia.awesomeapi.com.br/last/USD-BRL",
         LoopEvent.cellWrite "null", LoopEvent.sleepSecs 600]) ∧
    (iterEvents (fun _ => NetResult.okJson (Json.obj [])) "USDBRL" "prev").filter
      isLogEvent = [] ∧
    (iterEvents (fun _ => NetResult.okJson (Json.obj [])) "USDBRL" "prev").filter
      isCellWrite = [LoopEvent.cellWrite "null"] ∧
    "null" ≠ "prev" :=
  ⟨by decide, by decide, by decide, by decide⟩

/-- C2 (amended): a response whose JSON body lacks the field pair-dot-bid
is NOT a deserialization error: indexing the missing field yields JSON
null, the fetch returns Ok with the rendering null, no diagnostic log is
written, and the poll iteration writes the string null into the shared
rate cell. Only malformed bodies and transport failures are errors at the
fetch boundary. -/
theorem C2_missing_field_writes_null (net : String → NetResult)
    (pair cell : String) (body : Json) (pre post : List Char)
    (hsp : splitAtByte 3 pair.data = some (pre, post))
    (hnet : net (apiUrl (String.mk pre) (String.mk post)) = .okJson body)
    (hmiss : (body.lookupKey pair).bind (fun v => Json.lookupKey v "bid")
      = none) :
    loopIter net pair cell =
      .ok ("null", [.httpGet (apiUrl (String.mk pre) (String.mk post)),
        .cellWrite "null", .sleepSecs 600]) := by
  rw [loopIter_okJson net pair cell pre post body hsp hnet,
    index_bid_null body pair hmiss]
  rfl

/-- Witness for the amended C2 at a body carrying only an unrelated key. -/
theorem C2_missing_field_writes_null_witness :
    loopIter (fun _ => NetResult.okJson (Json.obj [("X", Json.null)]))
      "USDBRL" "old" =
      RustOutcome.ok ("null",
        [LoopEvent.httpGet "https://economia.awesomeapi.com.br/last/USD-BRL",
         LoopEvent.cellWrite "null", LoopEvent.sleepSecs 600]) :=
  C2_missing_field_writes_null
    (fun _ => NetResult.okJson (Json.obj [("X", Json.null)]))
    "USDBRL" "old" (Json.obj [("X", Json.null)]) "USD".data "BRL".data
    (by decide) rfl rfl

/-- C3: when fetch_exchange_rate returns an error (transport failure or
malformed JSON), the poll iteration logs the error to the diagnostic
stream, leaves the shared rate cell unchanged from its prior value, and
the loop continues: the state at the start of the next tick is alive and
unchanged. -/
theorem C3_error_logged_cell_unchanged (net : String → NetResult)
    (pair cell : String) (pre post : List Char) (e : FetchErr)
    (hsp : splitAtByte 3 pair.data = some (pre, post))
    (hnet : (net (apiUrl (String.mk pre) (String.mk post))).errOf = some e) :
    loopIter net pair cell =
      .ok (cell, [.httpGet (apiUrl (String.mk pre) (String.mk post)),
        .logError e, .sleepSecs 600]) ∧
    pollerCell net pair cell 1 = .ok cell := by
  have h1 := loopIter_err net pair cell pre post e hsp hnet
  refine ⟨h1, ?_⟩
  simp [pollerCell, h1]

/-- Witness for C3 at a transport failure with pair USDBRL. -/
theorem C3_error_logged_cell_unchanged_witness :
    loopIter (fun _ => NetResult.transportError) "USDBRL" "keep" =
      RustOutcome.ok ("keep",
        [LoopEvent.httpGet "https://economia.awesomeapi.com.br/last/USD-BRL",
         LoopEvent.logError FetchErr.transport, LoopEvent.sleepSecs 600]) :=
  (C3_error_logged_cell_unchanged (fun _ => NetResult.transportError)
    "USDBRL" "keep" "USD".data "BRL".data FetchErr.transport
    (by decide) rfl).1

/-- C4: for every sequence of InputChanged messages processed by update,
the symbol pair the poller fetches remains the one captured at startup,
USDBRL — a poll tick taken after the edits still issues its single GET for
USD-BRL — and processing InputChanged changes only input_value. -/
theorem C4_poller_pair_fixed (net : String → NetResult)
    (edits : List (Nat × String)) :
    (sysRun net initSystem
      (edits.map (fun p => SysOp.ui p.1 (Message.InputChanged p.2)))).pollerPair
      = "USDBRL" ∧
    (iterEvents net
      (sysRun net initSystem
        (edits.map (fun p => SysOp.ui p.1 (Message.InputChanged p.2)))).pollerPair
      (sysRun net initSystem
        (edits.map (fun p =>
          SysOp.ui p.1 (Message.InputChanged p.2)))).app.exchange_rate).filter
      isHttpGetEvent = [.httpGet (apiUrl "USD" "BRL")] ∧
    (∀ (app : YourApp) (freshId : Nat) (v : String),
      update app freshId (Message.InputChanged v)
        = { app with input_value := v }) := by
  have hp : (sysRun net initSystem
      (edits.map (fun p => SysOp.ui p.1 (Message.InputChanged p.2)))).pollerPair
      = "USDBRL" :=
    (sysRun_pollerPair net
      (edits.map (fun p => SysOp.ui p.1 (Message.InputChanged p.2)))
      initSystem).trans rfl
  refine ⟨hp, ?_, fun app freshId v => rfl⟩
  rw [hp]
  exact iterEvents_filter_get net "USDBRL" _ "USD".data "BRL".data (by decide)

/-- C5 counterexample: the 7-character input ABCDEFG is not a 6-character
pair, yet the byte-3 slicing succeeds (three characters and the remaining
four) and fetch_exchange_rate does not panic on it. -/
theorem C5_counterexample :
    "ABCDEFG".data.length ≠ 6 ∧
    splitAtByte 3 "ABCDEFG".data = some ("ABC".data, "DEFG".data) ∧
    (fetch_exchange_rate (fun _ => NetResult.transportError)
      "ABCDEFG").isPanicked = false :=
  ⟨by decide, by decide, by decide⟩

/-- C5 (amended): the slicing in fetch_exchange_rate fails exactly when
byte offset 3 is not a character boundary of the input — when no prefix of
its characters totals exactly 3 bytes (in particular any input shorter
than 3 bytes, or one whose first multi-byte character straddles offset 3).
Every input with such a 3-byte prefix slices successfully regardless of
total length, so the length-6 invariant is not the precondition for
slicing to succeed. -/
theorem C5_slicing_succeeds_iff (net : String → NetResult) (s : String) :
    (fetch_exchange_rate net s).isPanicked = false ↔
      ∃ n, byteLen (s.data.take n) = 3 := by
  rw [← splitAtByte_isSome_iff s.data 3]
  cases hsp : splitAtByte 3 s.data with
  | none =>
    rw [fetch_panic_of_none net s hsp]
    simp [RustOutcome.isPanicked]
  | some pr =>
    obtain ⟨pre, post⟩ := pr
    rw [fetch_eq_of_split net s pre post hsp]
    simp [RustOutcome.isPanicked]

/-- C6: for every symbol pair of six single-byte characters, a poll
iteration performs exactly one HTTP GET, to the awesomeapi URL built from
the first three and the last three characters of the pair, and on a JSON
body the iteration extracts the field pair-dot-bid from it: the value it
writes is the quote-trimmed rendering of that field. -/
theorem C6_one_get_extracts_bid (net : String → NetResult)
    (pair cell : String)
    (h6 : pair.data.length = 6) (ha : ∀ c ∈ pair.data, c.utf8Size = 1) :
    (iterEvents net pair cell).filter isHttpGetEvent =
      [.httpGet (apiUrl (String.mk (pair.data.take 3))
        (String.mk (pair.data.drop 3)))] ∧
    (∀ body : Json,
      net (apiUrl (String.mk (pair.data.take 3)) (String.mk (pair.data.drop 3)))
        = .okJson body →
      loopIter net pair cell =
        .ok (trimMatchesQuote (((body.index pair).index "bid").render),
          [.httpGet (apiUrl (String.mk (pair.data.take 3))
            (String.mk (pair.data.drop 3))),
           .cellWrite
             (trimMatchesQuote (((body.index pair).index "bid").render)),
           .sleepSecs 600])) := by
  have hsp := splitAtByte_ascii 3 pair.data ha (by omega)
  exact ⟨iterEvents_filter_get net pair cell _ _ hsp,
    fun body hnet => loopIter_okJson net pair cell _ _ body hsp hnet⟩

/-- Witness for C6 at pair EURJPY against a malformed-JSON network. -/
theorem C6_one_get_extracts_bid_witness :
    (iterEvents (fun _ => NetResult.malformedJson) "EURJPY" "z").filter
      isHttpGetEvent =
      [LoopEvent.httpGet "https://economia.awesomeapi.com.br/last/EUR-JPY"] :=
  (C6_one_get_extracts_bid (fun _ => NetResult.malformedJson) "EURJPY" "z"
    (by decide) (by decide)).1

/-- C7: the poller loop as spawned at init (pair USDBRL) never terminates
— for every network behavior, iteration n is reached without panic for all
n — and every iteration performs exactly one sleep, of 600 seconds (the
fixed 10-minute poll interval), as its last action before the next fetch
attempt. -/
theorem C7_loop_forever_600s (net : String → NetResult) (cell0 : String)
    (n : Nat) :
    (pollerCell net "USDBRL" cell0 n).isPanicked = false ∧
    (pollerIterEvents net "USDBRL" cell0 n).filter isSleepEvent
      = [.sleepSecs 600] ∧
    (pollerIterEvents net "USDBRL" cell0 n).getLast?
      = some (.sleepSecs 600) := by
  obtain ⟨c, hc⟩ := pollerCell_usdbrl_ok net cell0 n
  obtain ⟨c2, evs, hit, hfil, hlast⟩ := loopIter_usdbrl_shape net c
  have hev : pollerIterEvents net "USDBRL" cell0 n = evs := by
    simp [pollerIterEvents, hc, iterEvents, hit]
  exact ⟨by rw [hc]; rfl, by rw [hev]; exact hfil, by rw [hev]; exact hlast⟩

/-- C8: each tick of the poller loop performs at most one write to the
shared rate cell — exactly one when the fetch succeeds and none otherwise
— so between two consecutive successful fetches no intermediate write
occurs. -/
theorem C8_one_write_per_successful_tick (net : String → NetResult)
    (pair cell : String) :
    ((iterEvents net pair cell).filter isCellWrite).length =
      if fetchOk net pair = true then 1 else 0 := by
  rcases fetch_shape net pair with hp | ⟨r, pre, post, hsp, hok⟩
  · have hl : loopIter net pair cell = .panicked := by
      unfold loopIter; rw [hp]
    simp [iterEvents, hl, fetchOk, hp]
  · cases r with
    | ok rate =>
      have hl : loopIter net pair cell = .ok (trimMatchesQuote rate,
          [.httpGet (apiUrl (String.mk pre) (String.mk post)),
           .cellWrite (trimMatchesQuote rate), .sleepSecs 600]) := by
        unfold loopIter; rw [hok]; rfl
      simp [iterEvents, hl, fetchOk, hok, isCellWrite, List.filter]
    | error e =>
      have hl : loopIter net pair cell = .ok (cell,
          [.httpGet (apiUrl (String.mk pre) (String.mk post)),
           .logError e, .sleepSecs 600]) := by
        unfold loopIter; rw [hok]; rfl
      simp [iterEvents, hl, fetchOk, hok, isCellWrite, List.filter]

/-- C9: before the first successful fetch the shared rate cell holds the
empty default string: it starts empty, the only operation that can emit a
cell-write event is a poll tick whose fetch succeeded, and any run from
init whose ticks all fail leaves the cell empty. -/
theorem C9_cell_empty_and_sole_writer :
    initSystem.app.exchange_rate = "" ∧
    (∀ (net : String → NetResult) (s : SystemState) (op : SysOp) (v : String),
      LoopEvent.cellWrite v ∈ (sysStep net s op).2 →
      op = SysOp.pollTick ∧ fetchOk net s.pollerPair = true) ∧
    (∀ (net : String → NetResult) (ops : List SysOp),
      (∀ op ∈ ops, op = SysOp.pollTick → fetchOk net "USDBRL" = false) →
      (sysRun net initSystem ops).app.exchange_rate = "") := by
  refine ⟨rfl, ?_, ?_⟩
  · intro net s op v hmem
    cases op with
    | ui freshId m => simp [sysStep] at hmem
    | pollTick =>
      refine ⟨rfl, ?_⟩
      by_cases hp : s.pollerPanicked
      · simp [sysStep, hp] at hmem
      · rcases fetch_shape net s.pollerPair with hpf | ⟨r, pre, post, hsp, hok⟩
        · have hl : loopIter net s.pollerPair s.app.exchange_rate
              = .panicked := by
            unfold loopIter; rw [hpf]
          simp [sysStep, hp, hl] at hmem
        · cases r with
          | ok rate => simp [fetchOk, hok]
          | error e =>
            have hl : loopIter net s.pollerPair s.app.exchange_rate
                = .ok (s.app.exchange_rate,
                  [.httpGet (apiUrl (String.mk pre) (String.mk post)),
                   .logError e, .sleepSecs 600]) := by
              unfold loopIter; rw [hok]; rfl
            simp [sysStep, hp, hl] at hmem
  · intro net ops h
    exact (sysRun_cell_of_no_success net ops initSystem
      (fun op ho ht => h op ho ht)).trans rfl

/-- Witness for C9: a run of failing ticks and an edit leaves the cell
empty. -/
theorem C9_cell_empty_and_sole_writer_witness :
    (sysRun (fun _ => NetResult.malformedJson) initSystem
      [SysOp.pollTick, SysOp.ui 5 (Message.InputChanged "EURUSD"),
       SysOp.pollTick]).app.exchange_rate = "" :=
  C9_cell_empty_and_sole_writer.2.2 (fun _ => NetResult.malformedJson)
    [SysOp.pollTick, SysOp.ui 5 (Message.InputChanged "EURUSD"),
     SysOp.pollTick] (by decide)

/-- C10: every value the poller writes into the shared rate cell has every
leading and trailing quote character removed (trim strips whole runs), so
the stored rate string never begins or ends with a quote character. -/
theorem C10_written_value_quote_free (net : String → NetResult)
    (pair cell v : String)
    (hmem : LoopEvent.cellWrite v ∈ iterEvents net pair cell) :
    v.data.head? ≠ some '"' ∧ v.data.getLast? ≠ some '"' := by
  rcases fetch_shape net pair with hp | ⟨r, pre, post, hsp, hok⟩
  · have hl : loopIter net pair cell = .panicked := by
      unfold loopIter; rw [hp]
    simp [iterEvents, hl] at hmem
  · cases r with
    | ok rate =>
      have hl : loopIter net pair cell = .ok (trimMatchesQuote rate,
          [.httpGet (apiUrl (String.mk pre) (String.mk post)),
           .cellWrite (trimMatchesQuote rate), .sleepSecs 600]) := by
        unfold loopIter; rw [hok]; rfl
      simp only [iterEvents, hl, List.mem_cons, List.not_mem_nil,
        or_false] at hmem
      rcases hmem with h1 | h2 | h3
      · exact absurd h1 (by simp)
      · have hv : v = trimMatchesQuote rate := by
          injection h2
        rw [hv]
        exact trimMatchesQuote_ends rate
      · exact absurd h3 (by simp)
    | error e =>
      have hl : loopIter net pair cell = .ok (cell,
          [.httpGet (apiUrl (String.mk pre) (String.mk post)),
           .logError e, .sleepSecs 600]) := by
        unfold loopIter; rw [hok]; rfl
      simp [iterEvents, hl] at hmem

/-- Witness for C10 at the successful USDBRL fetch writing 5.32. -/
theorem C10_written_value_quote_free_witness :
    "5.32".data.head? ≠ some '"' ∧ "5.32".data.getLast? ≠ some '"' :=
  C10_written_value_quote_free
    (fun _ => NetResult.okJson
      (Json.obj [("USDBRL", Json.obj [("bid", Json.str "5.32")])]))
    "USDBRL" "" "5.32" (by decide)

end ExchangeApplet
